import Mathlib

/-
  Verification of the motion-command gateway (motion_control.c) of the
  stm32Grbl repository against its natural-language specification.

  The gateway's state-machine control flow (mc_line, mc_dwell,
  mc_probe_cycle, mc_reset) is embedded as explicit state passing over an
  `MCState` record, generic in the scalar type `A` of coordinates so that
  concrete runs can be evaluated over `ℚ`.  The arc decomposer `mc_arc`
  additionally needs trigonometry, so it is instantiated at `ℝ`, with the
  C float arithmetic idealised as exact real arithmetic.

  External collaborators (planner, protocol, probe pin driver, soft-limit
  validator) are not part of the source file; each is modelled from the
  specification and marked as such in its doc comment.
-/

set_option linter.unusedSectionVars false

namespace Grbl

/-- Machine coordinate vector: three axes, following N_AXIS = 3. -/
abbrev Vec (A : Type) := Fin 3 → A

/-- System state enumeration (sys.state), one constructor per STATE_* value
used by the gateway. -/
inductive SysState
  | idle | cycle | hold | jog | homing | check | alarmState | sleep | door
deriving DecidableEq

/-- Probe state monitor values: PROBE_OFF and PROBE_ACTIVE. -/
inductive ProbeSt
  | off | active
deriving DecidableEq

/-- Alarm codes raised by the gateway (EXEC_ALARM_*). -/
inductive Alarm
  | hardLimit | softLimit | probeFailInitial | probeFailContact
  | homingFailReset | abortCycle
deriving DecidableEq

/-- Result codes of mc_probe_cycle (GC_PROBE_*). -/
inductive ProbeResult
  | checkMode | abortResult | failInit | failEnd | found
deriving DecidableEq

/-- Condition bit-set of a plan-line descriptor (PL_COND_FLAG_*), one Boolean
field per flag of the enumeration in the data model. -/
structure PlanCond where
  rapid : Bool := false
  systemMotion : Bool := false
  noFeedOverride : Bool := false
  inverseTime : Bool := false
  spindleCW : Bool := false
  spindleCCW : Bool := false
  coolantFlood : Bool := false
  coolantMist : Bool := false
deriving DecidableEq

/-- Plan-line descriptor (plan_line_data_t): feed rate, spindle speed and
the condition bit-set. -/
structure PlanData (A : Type) where
  feed_rate : A
  spindle_speed : A
  condition : PlanCond
deriving DecidableEq

/-- Observable device side effects emitted by the gateway, recorded in
program order: spindle and coolant commands, stepper commands, dwells. -/
inductive Effect (A : Type)
  | spindleSync (rpm : A)
  | spindleStop
  | coolantStop
  | stGoIdle
  | stReset
  | delaySec (t : A)
deriving DecidableEq

/-- Asynchronous event applied by one invocation of the realtime executor:
an ISR may have requested abort, a state transition, a position change, or
a probe trigger (the stepper ISR deactivates the probe monitor and snapshots
the probe position).  A list of these is the environment schedule. -/
structure RtAction (A : Type) where
  setAbort : Bool := false
  newState : Option SysState := none
  newPos : Option (Vec A) := none
  probeTrigger : Bool := false
deriving DecidableEq

/-- The quiet action: no pending asynchronous events. -/
def RtAction.quiet {A : Type} : RtAction A := {}

/-- Settings word and values consumed by the gateway.  `nArcCorrection` is
N_ARC_CORRECTION; modelled from the spec: a compile-time integer constant
not present in the source tree. -/
structure Settings (A : Type) where
  softLimitEnable : Bool
  laserMode : Bool
  arc_tolerance : A
  nArcCorrection : ℕ

/-- External world fixed for a call: planner ring capacity (build-time),
the soft-limit validator verdict per target (limits.c is external), and the
electrical level of the probe pin.  Modelled from the spec. -/
structure Ext (A : Type) where
  cap : ℕ
  softViolate : Vec A → Bool
  pinLevel : Bool

/-- Process-wide machine state visible to the gateway: sys, the runtime-exec
flag word, the probe monitor, and the planner buffer interface state (queued
segment targets in FIFO order plus the planner's tracked position). -/
structure MCState (A : Type) where
  state : SysState
  abort : Bool
  rtReset : Bool
  rtCycleStart : Bool
  rtAlarm : Option Alarm
  stepControlHold : Bool
  stepControlSysMotion : Bool
  probeSucceeded : Bool
  sysProbeState : ProbeSt
  probeInvertMask : Bool
  sysPosition : Vec A
  probePosition : Vec A
  planner : List (Vec A)
  plannerPos : Vec A
  effects : List (Effect A)
deriving DecidableEq

variable {A : Type} [DecidableEq A]

/-- Modelled from the spec: one invocation of the realtime executor hook
(protocol_execute_realtime) applies pending asynchronous events: a pending
reset sets sys.abort, and the supplied ISR action may set abort, switch the
system state, move the machine, or trigger the probe (which deactivates the
probe monitor and snapshots the probe position). -/
def applyRt (s : MCState A) (a : RtAction A) : MCState A :=
  { s with
    abort := s.abort || a.setAbort || s.rtReset
    state := a.newState.getD s.state
    sysPosition := a.newPos.getD s.sysPosition
    sysProbeState := if a.probeTrigger then ProbeSt.off else s.sysProbeState
    probePosition := if a.probeTrigger then a.newPos.getD s.sysPosition else s.probePosition }

/-- Modelled from the spec: protocol_execute_realtime consumes the next
pending event of the environment schedule (or the quiet action when the
schedule is exhausted). -/
def protocol_execute_realtime (s : MCState A) (e : List (RtAction A)) :
    MCState A × List (RtAction A) :=
  match e with
  | [] => (applyRt s RtAction.quiet, [])
  | a :: rest => (applyRt s a, rest)

/-- system_set_exec_alarm: latch an alarm code in the runtime-exec alarm
word. -/
def system_set_exec_alarm (a : Alarm) (s : MCState A) : MCState A :=
  { s with rtAlarm := some a }

/-- Modelled from the spec: limits_soft_check (external, limits.c) validates
the target against the soft-limit bounds; on violation it raises an alarm
and aborts. -/
def limits_soft_check (X : Ext A) (target : Vec A) (s : MCState A) : MCState A :=
  if X.softViolate target then
    { s with rtAlarm := some Alarm.softLimit, abort := true }
  else s

/-- Modelled from the spec: plan_buffer_line submits one linear segment.
It reports EMPTY-BLOCK (first component true) when the segment has zero
length in every axis, i.e. the target equals the planner's tracked position,
and queues the segment otherwise. -/
def plan_buffer_line (target : Vec A) (s : MCState A) : Bool × MCState A :=
  if target = s.plannerPos then (true, s)
  else (false, { s with planner := s.planner ++ [target], plannerPos := target })

/-- Modelled from the spec: protocol_auto_cycle_start begins executing
buffered work so that the buffer drains; executing a block moves the machine
to that block's target. -/
def protocol_auto_cycle_start (s : MCState A) : MCState A :=
  match s.planner with
  | [] => s
  | t :: rest => { s with planner := rest, sysPosition := t }

/-- Back-pressure loop of mc_line (source lines 64-73): repeatedly run the
realtime hook, bail on abort, and request auto-cycle-start while the planner
is full.  Fuel-indexed; `none` means the loop never exits within the
schedule (true divergence of the model). -/
def backpressureAux (X : Ext A) :
    ℕ → MCState A → List (RtAction A) → Option (MCState A × List (RtAction A))
  | 0, _, _ => none
  | n + 1, s, e =>
    let s1 := applyRt s (match e with | [] => RtAction.quiet | a :: _ => a)
    let e1 := e.tail
    if s1.abort then some (s1, e1)
    else if X.cap ≤ s1.planner.length then
      backpressureAux X n (protocol_auto_cycle_start s1) e1
    else some (s1, e1)

/-- Back-pressure loop with fuel sufficient for every run that can exit. -/
def backpressure (X : Ext A) (s : MCState A) (e : List (RtAction A)) :
    Option (MCState A × List (RtAction A)) :=
  backpressureAux X (e.length + s.planner.length + 1) s e

/-- mc_line, translated from source lines 33-88: soft-limit check (unless
jogging), check-mode gate, back-pressure loop, planner submission, and the
laser-mode spindle sync on an empty block with SPINDLE-CW set. -/
def mc_line (X : Ext A) (St : Settings A) (target : Vec A) (pl : PlanData A)
    (s : MCState A) (e : List (RtAction A)) :
    Option (MCState A × List (RtAction A)) :=
  let s0 := if St.softLimitEnable ∧ s.state ≠ SysState.jog then
              limits_soft_check X target s
            else s
  if s0.state = SysState.check then some (s0, e)
  else
    match backpressure X s0 e with
    | none => none
    | some (s1, e1) =>
      if s1.abort then some (s1, e1)
      else
        let pr := plan_buffer_line target s1
        if pr.1 then
          if St.laserMode then
            if pl.condition.spindleCW then
              some ({ pr.2 with
                      effects := pr.2.effects ++ [Effect.spindleSync pl.spindle_speed] },
                    e1)
            else some (pr.2, e1)
          else some (pr.2, e1)
        else some (pr.2, e1)

/-- Modelled from the spec: protocol_buffer_synchronize drives the realtime
hook and blocks until every queued segment has been executed and the planner
is empty; on abort it unwinds immediately without draining. -/
def protocol_buffer_synchronize (s : MCState A) (e : List (RtAction A)) :
    MCState A × List (RtAction A) :=
  let p := protocol_execute_realtime s e
  if p.1.abort then p
  else if p.1.planner = [] then p
  else ({ p.1 with planner := [], sysPosition := p.1.plannerPos }, p.2)

/-- mc_dwell, translated from source lines 217-223: no-op in check mode,
otherwise synchronize the planner and delay. -/
def mc_dwell (seconds : A) (s : MCState A) (e : List (RtAction A)) :
    MCState A × List (RtAction A) :=
  if s.state = SysState.check then (s, e)
  else
    let p := protocol_buffer_synchronize s e
    ({ p.1 with effects := p.1.effects ++ [Effect.delaySec seconds] }, p.2)

/-- Modelled from the spec: probe_get_state reads the probe pin through the
configured polarity (invert mask). -/
def probe_get_state (X : Ext A) (s : MCState A) : Bool :=
  xor X.pinLevel s.probeInvertMask

/-- Wait loop of the probe cycle (source lines 323-328): run the realtime
hook, bail on abort, repeat until the system state returns to IDLE.
`none` means the schedule was exhausted with the machine still moving. -/
def probeWait (s : MCState A) :
    List (RtAction A) → Option (MCState A × List (RtAction A))
  | [] =>
    let s1 := applyRt s RtAction.quiet
    if s1.abort then some (s1, [])
    else if s1.state = SysState.idle then some (s1, [])
    else none
  | a :: rest =>
    let s1 := applyRt s a
    if s1.abort then some (s1, rest)
    else if s1.state = SysState.idle then some (s1, rest)
    else probeWait s1 rest

/-- mc_probe_cycle, translated from source lines 288-361.  The parser flags
are the two Booleans GC_PARSER_PROBE_IS_AWAY and GC_PARSER_PROBE_IS_NO_ERROR.
Returns the GC_PROBE_* result code together with the final state. -/
def mc_probe_cycle (X : Ext A) (St : Settings A) (target : Vec A)
    (pl : PlanData A) (isAway isNoError : Bool)
    (s : MCState A) (e : List (RtAction A)) :
    Option (ProbeResult × MCState A × List (RtAction A)) :=
  if s.state = SysState.check then some (ProbeResult.checkMode, s, e)
  else
    let p1 := protocol_buffer_synchronize s e
    if p1.1.abort then some (ProbeResult.abortResult, p1.1, p1.2)
    else
      let s2 := { p1.1 with probeSucceeded := false, probeInvertMask := isAway }
      if probe_get_state X s2 then
        let s3 := system_set_exec_alarm Alarm.probeFailInitial s2
        let p2 := protocol_execute_realtime s3 p1.2
        some (ProbeResult.failInit, { p2.1 with probeInvertMask := false }, p2.2)
      else
        match mc_line X St target pl s2 p1.2 with
        | none => none
        | some (s3, e2) =>
          let s4 := { s3 with sysProbeState := ProbeSt.active, rtCycleStart := true }
          match probeWait s4 e2 with
          | none => none
          | some (s5, e3) =>
            if s5.abort then some (ProbeResult.abortResult, s5, e3)
            else
              let s6 :=
                if s5.sysProbeState = ProbeSt.active then
                  if isNoError then { s5 with probePosition := s5.sysPosition }
                  else system_set_exec_alarm Alarm.probeFailContact s5
                else { s5 with probeSucceeded := true }
              let s7 := { s6 with sysProbeState := ProbeSt.off,
                                  probeInvertMask := false }
              let p3 := protocol_execute_realtime s7 e3
              let s9 := { p3.1 with
                          effects := p3.1.effects ++ [Effect.stReset]
                          planner := []
                          plannerPos := p3.1.sysPosition }
              if s9.probeSucceeded then some (ProbeResult.found, s9, p3.2)
              else some (ProbeResult.failEnd, s9, p3.2)

/-- Value of the source's `#define M_PI 3.1415926` (source line 25). -/
noncomputable def M_PI : ℝ := 3.1415926

/-- Modelled from the spec: ARC_ANGULAR_TRAVEL_EPSILON is a small
compile-time constant (~1e-6 rad) not present in the source tree. -/
noncomputable def ARC_ANGULAR_TRAVEL_EPSILON : ℝ := 1e-6

/-- Two-argument arctangent with the C library `atan2` semantics, over exact
reals: quadrant-corrected arctangent of y/x. -/
noncomputable def atan2 (y x : ℝ) : ℝ :=
  if 0 < x then Real.arctan (y / x)
  else if x < 0 then
    if 0 ≤ y then Real.arctan (y / x) + Real.pi
    else Real.arctan (y / x) - Real.pi
  else
    if 0 < y then Real.pi / 2
    else if y < 0 then -(Real.pi / 2)
    else 0

/-- CCW angle between the radius vector and the target radius vector, as
computed by mc_arc (source line 110) from position, offset and target. -/
noncomputable def rawTravel (position offset target : Vec ℝ) (a0 a1 : Fin 3) : ℝ :=
  let center0 := position a0 + offset a0
  let center1 := position a1 + offset a1
  let r0 := -(offset a0)
  let r1 := -(offset a1)
  let rt0 := target a0 - center0
  let rt1 := target a1 - center1
  atan2 (r0 * rt1 - r1 * rt0) (r0 * rt0 + r1 * rt1)

/-- Direction correction of the atan2 output (source lines 111-119): force
clockwise travel negative and counter-clockwise travel positive, pushing
near-zero travel to a full revolution of 2·M_PI. -/
noncomputable def correctTravel (t : ℝ) (isClockwise : Bool) : ℝ :=
  if isClockwise then
    if -ARC_ANGULAR_TRAVEL_EPSILON ≤ t then t - 2 * M_PI else t
  else
    if t ≤ ARC_ANGULAR_TRAVEL_EPSILON then t + 2 * M_PI else t

/-- Segment count of the arc (source lines 125-126):
floor of |half travel times radius| over the chordal-tolerance root. -/
noncomputable def numSegments (tol travel radius : ℝ) : ℕ :=
  ⌊|0.5 * travel * radius| / Real.sqrt (tol * (2 * radius - tol))⌋₊

/-- Small-angle cosine approximation of the source (lines 168-170): the
value of cos_T after the final halving, i.e. (2 − θ²)/2. -/
noncomputable def cos_T (theta : ℝ) : ℝ := 0.5 * (2 - theta * theta)

/-- Small-angle sine approximation of the source (line 169): computed from
the pre-halving value of cos_T, i.e. θ·0.16666667·((2 − θ²) + 4). -/
noncomputable def sin_T (theta : ℝ) : ℝ :=
  theta * 0.16666667 * ((2 - theta * theta) + 4)

/-- Loop-carried radius vector and correction counter of the arc loop. -/
structure ArcIter where
  r0 : ℝ
  r1 : ℝ
  count : ℕ

/-- One pass of the arc loop body acting on the radius vector (source lines
181-197): incremental rotation while fewer than N_ARC_CORRECTION
approximation steps have elapsed, otherwise exact recomputation from the
original offset at angle i·θ. -/
noncomputable def arcStep (N : ℕ) (off0 off1 theta : ℝ) (i : ℕ) (it : ArcIter) :
    ArcIter :=
  if it.count < N then
    { r0 := it.r0 * cos_T theta - it.r1 * sin_T theta
      r1 := it.r0 * sin_T theta + it.r1 * cos_T theta
      count := it.count + 1 }
  else
    { r0 := -off0 * Real.cos (i * theta) + off1 * Real.sin (i * theta)
      r1 := -off0 * Real.sin (i * theta) - off1 * Real.cos (i * theta)
      count := 0 }

/-- Iterated arc loop body: apply `arcStep` at indices i, i+1, ... for the
given number of iterations. -/
noncomputable def iterFold (N : ℕ) (off0 off1 theta : ℝ) :
    ℕ → ℕ → ArcIter → ArcIter
  | _, 0, it => it
  | i, fuel + 1, it =>
    iterFold N off0 off1 theta (i + 1) fuel (arcStep N off0 off1 theta i it)

/-- In-place update of the position array by one arc iteration (source lines
200-202): sequential stores to axis_0, axis_1 and the accumulating linear
axis. -/
noncomputable def arcPosUpdate (c0 c1 lps : ℝ) (a0 a1 alin : Fin 3)
    (it : ArcIter) (pos : Vec ℝ) : Vec ℝ :=
  let p1 := Function.update pos a0 (c0 + it.r0)
  let p2 := Function.update p1 a1 (c1 + it.r1)
  Function.update p2 alin (p2 alin + lps)

/-- Pure mirror of the arc interior loop: the iteration state and position
array after the given number of iterations starting at index i. -/
noncomputable def arcPure (N : ℕ) (off0 off1 theta c0 c1 lps : ℝ)
    (a0 a1 alin : Fin 3) : ℕ → ℕ → ArcIter → Vec ℝ → ArcIter × Vec ℝ
  | _, 0, it, pos => (it, pos)
  | i, fuel + 1, it, pos =>
    let it1 := arcStep N off0 off1 theta i it
    arcPure N off0 off1 theta c0 c1 lps a0 a1 alin (i + 1) fuel it1
      (arcPosUpdate c0 c1 lps a0 a1 alin it1 pos)

/-- Interior loop of mc_arc (source lines 178-209): for each index, advance
the radius vector and position, submit the position through mc_line, and
bail on system abort.  The Boolean result records an early abort exit. -/
noncomputable def arcLoop (X : Ext ℝ) (St : Settings ℝ) (pl : PlanData ℝ)
    (off0 off1 theta c0 c1 lps : ℝ) (a0 a1 alin : Fin 3) :
    ℕ → ℕ → ArcIter → Vec ℝ → MCState ℝ → List (RtAction ℝ) →
    Option (Vec ℝ × MCState ℝ × List (RtAction ℝ) × Bool)
  | _, 0, _, pos, s, e => some (pos, s, e, false)
  | i, fuel + 1, it, pos, s, e =>
    let it1 := arcStep St.nArcCorrection off0 off1 theta i it
    let pos1 := arcPosUpdate c0 c1 lps a0 a1 alin it1 pos
    match mc_line X St pos1 pl s e with
    | none => none
    | some (s1, e1) =>
      if s1.abort then some (pos1, s1, e1, true)
      else arcLoop X St pl off0 off1 theta c0 c1 lps a0 a1 alin (i + 1) fuel it1 pos1 s1 e1

/-- mc_arc, translated from source lines 98-213: compute the corrected
angular travel and segment count, adjust the descriptor under inverse-time
mode, run the interior loop, and finish with a direct mc_line to the
caller's target.  Returns the final contents of the (in-place mutated)
position array, the final descriptor contents, and the final state. -/
noncomputable def mc_arc (X : Ext ℝ) (St : Settings ℝ) (target : Vec ℝ)
    (pl : PlanData ℝ) (position offset : Vec ℝ) (radius : ℝ)
    (a0 a1 alin : Fin 3) (isClockwise : Bool)
    (s : MCState ℝ) (e : List (RtAction ℝ)) :
    Option (Vec ℝ × PlanData ℝ × MCState ℝ × List (RtAction ℝ)) :=
  let c0 := position a0 + offset a0
  let c1 := position a1 + offset a1
  let travel := correctTravel (rawTravel position offset target a0 a1) isClockwise
  let segments := numSegments St.arc_tolerance travel radius
  if segments ≠ 0 then
    let pl1 :=
      if pl.condition.inverseTime then
        { pl with feed_rate := pl.feed_rate * segments
                  condition := { pl.condition with inverseTime := false } }
      else pl
    let theta := travel / segments
    let lps := (target alin - position alin) / segments
    match arcLoop X St pl1 (-(offset a0)) (-(offset a1)) theta c0 c1 lps a0 a1 alin
        1 (segments - 1) ⟨-(offset a0), -(offset a1), 0⟩ position s e with
    | none => none
    | some (pos1, s1, e1, aborted) =>
      if aborted then some (pos1, pl1, s1, e1)
      else
        match mc_line X St target pl1 s1 e1 with
        | none => none
        | some (s2, e2) => some (pos1, pl1, s2, e2)
  else
    match mc_line X St target pl s e with
    | none => none
    | some (s1, e1) => some (position, pl, s1, e1)

/-- mc_reset, translated from source lines 409-436: no-op when EXEC_RESET is
already set; otherwise set it, stop spindle and coolant, and when in a motion
state raise the appropriate alarm and force the steppers idle. -/
def mc_reset (s : MCState A) : MCState A :=
  if s.rtReset = false then
    let s1 := { s with rtReset := true }
    let s2 := { s1 with effects := s1.effects ++ [Effect.spindleStop, Effect.coolantStop] }
    if (s2.state = SysState.cycle ∨ s2.state = SysState.homing ∨
        s2.state = SysState.jog) ∨
       (s2.stepControlHold ∨ s2.stepControlSysMotion) then
      let s3 :=
        if s2.state = SysState.homing then
          if s2.rtAlarm = none then system_set_exec_alarm Alarm.homingFailReset s2
          else s2
        else system_set_exec_alarm Alarm.abortCycle s2
      { s3 with effects := s3.effects ++ [Effect.stGoIdle] }
    else s2
  else s

/-! Field-preservation facts about the realtime hook and the synchronize
operation. -/

@[simp] lemma applyRt_planner (s : MCState A) (a : RtAction A) :
    (applyRt s a).planner = s.planner := rfl

@[simp] lemma applyRt_plannerPos (s : MCState A) (a : RtAction A) :
    (applyRt s a).plannerPos = s.plannerPos := rfl

@[simp] lemma applyRt_effects (s : MCState A) (a : RtAction A) :
    (applyRt s a).effects = s.effects := rfl

@[simp] lemma applyRt_rtAlarm (s : MCState A) (a : RtAction A) :
    (applyRt s a).rtAlarm = s.rtAlarm := rfl

@[simp] lemma applyRt_rtReset (s : MCState A) (a : RtAction A) :
    (applyRt s a).rtReset = s.rtReset := rfl

@[simp] lemma applyRt_rtCycleStart (s : MCState A) (a : RtAction A) :
    (applyRt s a).rtCycleStart = s.rtCycleStart := rfl

@[simp] lemma applyRt_probeSucceeded (s : MCState A) (a : RtAction A) :
    (applyRt s a).probeSucceeded = s.probeSucceeded := rfl

@[simp] lemma applyRt_probeInvertMask (s : MCState A) (a : RtAction A) :
    (applyRt s a).probeInvertMask = s.probeInvertMask := rfl

@[simp] lemma applyRt_stepControlHold (s : MCState A) (a : RtAction A) :
    (applyRt s a).stepControlHold = s.stepControlHold := rfl

@[simp] lemma applyRt_stepControlSysMotion (s : MCState A) (a : RtAction A) :
    (applyRt s a).stepControlSysMotion = s.stepControlSysMotion := rfl

lemma applyRt_probe_off (s : MCState A) (a : RtAction A)
    (h : s.sysProbeState = ProbeSt.off) :
    (applyRt s a).sysProbeState = ProbeSt.off := by
  unfold applyRt
  by_cases hp : a.probeTrigger <;> simp [hp, h]

lemma applyRt_abort_false (s : MCState A) (a : RtAction A)
    (h1 : s.abort = false) (h2 : s.rtReset = false) (h3 : a.setAbort = false) :
    (applyRt s a).abort = false := by
  unfold applyRt
  simp [h1, h2, h3]

/-- With the quiet action and no pending reset, the realtime hook is the
identity on the state. -/
lemma applyRt_quiet (s : MCState A) (h1 : s.abort = false)
    (h2 : s.rtReset = false) : applyRt s RtAction.quiet = s := by
  cases s
  simp_all [applyRt, RtAction.quiet]

lemma exec_probe_off (s : MCState A) (e : List (RtAction A))
    (h : s.sysProbeState = ProbeSt.off) :
    (protocol_execute_realtime s e).1.sysProbeState = ProbeSt.off := by
  unfold protocol_execute_realtime
  cases e with
  | nil => simpa using applyRt_probe_off s RtAction.quiet h
  | cons a rest => simpa using applyRt_probe_off s a h

lemma sync_not_abort_planner (s : MCState A) (e : List (RtAction A))
    (h : (protocol_buffer_synchronize s e).1.abort = false) :
    (protocol_buffer_synchronize s e).1.planner = [] := by
  unfold protocol_buffer_synchronize at *
  by_cases hab : (protocol_execute_realtime s e).1.abort = true
  · simp [hab] at h
  · by_cases hpl : (protocol_execute_realtime s e).1.planner = []
    · simp [hab, hpl]
    · simp [hab, hpl]

lemma sync_probe_off (s : MCState A) (e : List (RtAction A))
    (h : s.sysProbeState = ProbeSt.off) :
    (protocol_buffer_synchronize s e).1.sysProbeState = ProbeSt.off := by
  have hh := exec_probe_off s e h
  unfold protocol_buffer_synchronize
  by_cases hab : (protocol_execute_realtime s e).1.abort = true
  · simpa [hab] using hh
  · by_cases hpl : (protocol_execute_realtime s e).1.planner = []
    · simpa [hab, hpl] using hh
    · simpa [hab, hpl] using hh

lemma exec_planner (s : MCState A) (e : List (RtAction A)) :
    (protocol_execute_realtime s e).1.planner = s.planner := by
  unfold protocol_execute_realtime
  cases e <;> rfl

lemma exec_plannerPos (s : MCState A) (e : List (RtAction A)) :
    (protocol_execute_realtime s e).1.plannerPos = s.plannerPos := by
  unfold protocol_execute_realtime
  cases e <;> rfl

lemma exec_effects (s : MCState A) (e : List (RtAction A)) :
    (protocol_execute_realtime s e).1.effects = s.effects := by
  unfold protocol_execute_realtime
  cases e <;> rfl

lemma exec_rtAlarm (s : MCState A) (e : List (RtAction A)) :
    (protocol_execute_realtime s e).1.rtAlarm = s.rtAlarm := by
  unfold protocol_execute_realtime
  cases e <;> rfl

lemma sync_plannerPos (s : MCState A) (e : List (RtAction A)) :
    (protocol_buffer_synchronize s e).1.plannerPos = s.plannerPos := by
  unfold protocol_buffer_synchronize
  have hp := exec_plannerPos s e
  by_cases hab : (protocol_execute_realtime s e).1.abort = true
  · simpa [hab] using hp
  · by_cases hpl : (protocol_execute_realtime s e).1.planner = []
    · simpa [hab, hpl] using hp
    · simpa [hab, hpl] using hp

lemma sync_effects (s : MCState A) (e : List (RtAction A)) :
    (protocol_buffer_synchronize s e).1.effects = s.effects := by
  unfold protocol_buffer_synchronize
  have hp := exec_effects s e
  by_cases hab : (protocol_execute_realtime s e).1.abort = true
  · simpa [hab] using hp
  · by_cases hpl : (protocol_execute_realtime s e).1.planner = []
    · simpa [hab, hpl] using hp
    · simpa [hab, hpl] using hp

/-- One iteration of the back-pressure loop with a quiet schedule and a
non-full planner exits immediately without changing the state. -/
lemma backpressureAux_step (X : Ext A) (n : ℕ) (s : MCState A)
    (ha : s.abort = false) (hr : s.rtReset = false)
    (hcap : s.planner.length < X.cap) :
    backpressureAux X (n + 1) s [] = some (s, []) := by
  unfold backpressureAux
  simp [applyRt_quiet s ha hr, ha, Nat.not_le.mpr hcap]

/-- The back-pressure loop with a quiet schedule and a non-full planner is
the identity. -/
lemma backpressure_quick (X : Ext A) (s : MCState A) (ha : s.abort = false)
    (hr : s.rtReset = false) (hcap : s.planner.length < X.cap) :
    backpressure X s [] = some (s, []) := by
  simpa [backpressure] using backpressureAux_step X s.planner.length s ha hr hcap

/-- mc_reset always leaves the EXEC_RESET flag set. -/
lemma mc_reset_rtReset (s : MCState A) : (mc_reset s).rtReset = true ∨ mc_reset s = s := by
  unfold mc_reset
  by_cases h : s.rtReset = false
  · left
    simp only [h, if_true]
    split
    · split
      · split <;> simp [system_set_exec_alarm]
      · simp [system_set_exec_alarm]
    · rfl
  · right
    simp [h]

/-- Claim helper: a state whose EXEC_RESET flag is set is left untouched. -/
lemma mc_reset_noop (s : MCState A) (h : s.rtReset = true) : mc_reset s = s := by
  unfold mc_reset
  simp [h]

/-! Concrete fixtures over ℚ for example runs and witnesses. -/

/-- Example external world: ring capacity 16, no soft-limit violations,
probe pin electrically idle. -/
def qExt : Ext ℚ := ⟨16, fun _ => false, false⟩

/-- Example external world whose probe pin is electrically asserted. -/
def qExtPin : Ext ℚ := ⟨16, fun _ => false, true⟩

/-- Example settings: soft limits off, laser mode off, arc_tolerance
0.002 mm, N_ARC_CORRECTION 12. -/
def qSettings : Settings ℚ := ⟨false, true, 2 / 1000, 12⟩

/-- Example settings with laser mode disabled. -/
def qSettingsNoLaser : Settings ℚ := ⟨false, false, 2 / 1000, 12⟩

/-- Example descriptor: feed 600, spindle speed 1000, no condition flags. -/
def qPl : PlanData ℚ := ⟨600, 1000, {}⟩

/-- Example descriptor with SPINDLE-CW set. -/
def qPlCW : PlanData ℚ := ⟨600, 1000, { spindleCW := true }⟩

/-- Example idle machine state at the origin with an empty planner. -/
def qIdle : MCState ℚ :=
  { state := SysState.idle, abort := false, rtReset := false,
    rtCycleStart := false, rtAlarm := none, stepControlHold := false,
    stepControlSysMotion := false, probeSucceeded := false,
    sysProbeState := ProbeSt.off, probeInvertMask := false,
    sysPosition := ![0, 0, 0], probePosition := ![0, 0, 0], planner := [],
    plannerPos := ![0, 0, 0], effects := [] }

/-- Example probe target. -/
def qTarget : Vec ℚ := ![100, 0, 0]

/-- Environment schedule in which an ISR requests reset while the probe
motion is executing. -/
def qAbortEnv : List (RtAction ℚ) := [{}, {}, { setAbort := true }]

/-- Environment schedule of a successful probe: the probe triggers at
x = 37 and the machine returns to IDLE. -/
def qFoundEnv : List (RtAction ℚ) :=
  [{}, {},
   { newState := some SysState.idle, newPos := some ![37, 0, 0],
     probeTrigger := true }]

/-! Claim C8: reset idempotence. -/

/-- C8: mc_reset is idempotent: a call with EXEC_RESET already set performs
no action at all, and two consecutive invocations from the same state
produce exactly the side effects of one. -/
theorem C8_mc_reset_idempotent (s : MCState A) :
    (s.rtReset = true → mc_reset s = s) ∧
      mc_reset (mc_reset s) = mc_reset s := by
  refine ⟨mc_reset_noop s, ?_⟩
  rcases mc_reset_rtReset s with h | h
  · exact mc_reset_noop _ h
  · rw [h, h]

/-- Witness for C8: a state with EXEC_RESET already set is untouched, and a
double reset from the example idle state equals a single reset. -/
theorem C8_witness :
    mc_reset { qIdle with rtReset := true } = { qIdle with rtReset := true } ∧
      mc_reset (mc_reset qIdle) = mc_reset qIdle :=
  ⟨(C8_mc_reset_idempotent { qIdle with rtReset := true }).1 rfl,
   (C8_mc_reset_idempotent qIdle).2⟩

/-! Claim C1: probe cleanup. -/

/-- Cleanup property of a probe-cycle outcome: when the result code is
neither CHECK-MODE nor ABORT, the probe monitor is off and the planner
queue is empty on return. -/
def probeCleanup (o : Option (ProbeResult × MCState A × List (RtAction A))) :
    Prop :=
  match o with
  | none => True
  | some (r, s1, _) =>
      r ≠ ProbeResult.checkMode → r ≠ ProbeResult.abortResult →
        s1.sysProbeState = ProbeSt.off ∧ s1.planner = []

/-- C1 (amended): every mc_probe_cycle call entered with the probe monitor
off that returns FAIL-INIT, FAIL-END or FOUND leaves sys_probe_state =
PROBE_OFF and the planner queue empty.  The claim's ABORT case is false:
the abort exit of the wait loop leaves the monitor ACTIVE and the probe
segment queued (see the counterexample). -/
theorem C1_probe_cleanup (X : Ext A) (St : Settings A) (target : Vec A)
    (pl : PlanData A) (isAway isNoError : Bool) (s : MCState A)
    (e : List (RtAction A)) (h0 : s.sysProbeState = ProbeSt.off) :
    probeCleanup (mc_probe_cycle X St target pl isAway isNoError s e) := by
  unfold mc_probe_cycle
  by_cases hc : s.state = SysState.check
  · rw [if_pos hc]
    exact fun h1 _ => absurd rfl h1
  · rw [if_neg hc]
    dsimp only
    by_cases hab : (protocol_buffer_synchronize s e).1.abort = true
    · rw [if_pos hab]
      exact fun _ h2 => absurd rfl h2
    · rw [if_neg hab]
      simp only [Bool.not_eq_true] at hab
      have hplan := sync_not_abort_planner s e hab
      have hoff := sync_probe_off s e h0
      by_cases hpg : probe_get_state X
          { (protocol_buffer_synchronize s e).1 with
            probeSucceeded := false, probeInvertMask := isAway } = true
      · rw [if_pos hpg]
        exact fun _ _ =>
          ⟨exec_probe_off _ _ hoff, (exec_planner _ _).trans hplan⟩
      · rw [if_neg hpg]
        rcases hml : mc_line X St target pl
            { (protocol_buffer_synchronize s e).1 with
              probeSucceeded := false, probeInvertMask := isAway }
            (protocol_buffer_synchronize s e).2 with _ | ⟨s3, e2⟩
        · exact trivial
        · dsimp only
          rcases hpw : probeWait
              { s3 with sysProbeState := ProbeSt.active, rtCycleStart := true }
              e2 with _ | ⟨s5, e3⟩
          · exact trivial
          · dsimp only
            by_cases hab5 : s5.abort = true
            · rw [if_pos hab5]
              exact fun _ h2 => absurd rfl h2
            · rw [if_neg hab5]
              repeat' split
              all_goals exact fun _ _ => ⟨exec_probe_off _ _ rfl, rfl⟩

/-- Counterexample to C1 as stated: an ISR-requested reset during the probe
wait loop makes the call return ABORT with the probe monitor still ACTIVE
and the probe segment still queued. -/
theorem C1_counterexample :
    (mc_probe_cycle qExt qSettings qTarget qPl false false qIdle
        qAbortEnv).map
        (fun r => (r.1, r.2.1.sysProbeState, r.2.1.planner.isEmpty)) =
      some (ProbeResult.abortResult, ProbeSt.active, false) := by
  decide

/-- Witness for C1: a successful probe run returns FOUND and satisfies the
cleanup property. -/
theorem C1_witness :
    (mc_probe_cycle qExt qSettings qTarget qPl false false qIdle
        qFoundEnv).map (fun r => r.1) = some ProbeResult.found ∧
      probeCleanup
        (mc_probe_cycle qExt qSettings qTarget qPl false false qIdle
          qFoundEnv) :=
  ⟨by decide,
   C1_probe_cleanup qExt qSettings qTarget qPl false false qIdle qFoundEnv
     rfl⟩

/-! Claim C2: probe-init safety. -/

/-- C2: when the probe pin reads asserted after the initial planner drain
(and the drain was not aborted), mc_probe_cycle returns FAIL-INIT, submits
no segment (empty planner, planner position and device effects unchanged),
latches the PROBE-FAIL-INITIAL alarm, and restores the probe pin polarity
before returning. -/
theorem C2_probe_fail_init (X : Ext A) (St : Settings A) (target : Vec A)
    (pl : PlanData A) (isAway isNoError : Bool) (s : MCState A)
    (e : List (RtAction A))
    (hc : s.state ≠ SysState.check)
    (hab : (protocol_buffer_synchronize s e).1.abort = false)
    (hpin : xor X.pinLevel isAway = true) :
    ∃ s1 e1,
      mc_probe_cycle X St target pl isAway isNoError s e =
          some (ProbeResult.failInit, s1, e1) ∧
        s1.planner = [] ∧ s1.plannerPos = s.plannerPos ∧
        s1.probeInvertMask = false ∧
        s1.rtAlarm = some Alarm.probeFailInitial ∧
        s1.effects = s.effects := by
  unfold mc_probe_cycle
  rw [if_neg hc]
  dsimp only
  rw [if_neg (by simp [hab])]
  have hpg : probe_get_state X
      { (protocol_buffer_synchronize s e).1 with
        probeSucceeded := false, probeInvertMask := isAway } = true := hpin
  rw [if_pos hpg]
  refine ⟨_, _, rfl, ?_, ?_, rfl, ?_, ?_⟩
  · exact (exec_planner _ _).trans (sync_not_abort_planner s e hab)
  · exact (exec_plannerPos _ _).trans (sync_plannerPos s e)
  · exact (exec_rtAlarm _ _).trans rfl
  · exact (exec_effects _ _).trans (sync_effects s e)

/-- Witness for C2: the concrete pin-asserted run. -/
theorem C2_witness :
    ∃ s1 e1,
      mc_probe_cycle qExtPin qSettings qTarget qPl false false qIdle
          [RtAction.quiet] = some (ProbeResult.failInit, s1, e1) ∧
        s1.planner = [] ∧ s1.plannerPos = qIdle.plannerPos ∧
        s1.probeInvertMask = false ∧
        s1.rtAlarm = some Alarm.probeFailInitial ∧
        s1.effects = qIdle.effects :=
  C2_probe_fail_init qExtPin qSettings qTarget qPl false false qIdle
    [RtAction.quiet] (by decide) (by decide) (by decide)

/-! Claim C6: laser-mode zero-length spindle sync. -/

/-- C6: for a quiet mc_line call, exactly one synchronous spindle RPM write
(with the descriptor's spindle speed) happens precisely when the planner
reports an empty block (target coincides with the planner position), laser
mode is enabled, and the descriptor has SPINDLE-CW set; in every other case
the device effect log is unchanged. -/
theorem C6_mc_line_laser_sync (X : Ext A) (St : Settings A) (target : Vec A)
    (pl : PlanData A) (s : MCState A)
    (hsl : St.softLimitEnable = false)
    (hc : s.state ≠ SysState.check)
    (ha : s.abort = false) (hr : s.rtReset = false)
    (hcap : s.planner.length < X.cap) :
    ∃ s1, mc_line X St target pl s [] = some (s1, []) ∧
      s1.effects =
        (if target = s.plannerPos ∧ St.laserMode = true ∧
            pl.condition.spindleCW = true
         then s.effects ++ [Effect.spindleSync pl.spindle_speed]
         else s.effects) := by
  unfold mc_line
  dsimp only
  have hs0 : (if St.softLimitEnable = true ∧ s.state ≠ SysState.jog then
      limits_soft_check X target s else s) = s := by simp [hsl]
  rw [hs0, if_neg hc, backpressure_quick X s ha hr hcap]
  dsimp only
  rw [if_neg (by simp [ha])]
  unfold plan_buffer_line
  by_cases ht : target = s.plannerPos
  · rw [if_pos ht]
    dsimp only
    by_cases hl : St.laserMode = true
    · rw [if_pos hl]
      by_cases hcw : pl.condition.spindleCW = true
      · rw [if_pos hcw]
        exact ⟨_, rfl, by simp [ht, hl, hcw]⟩
      · rw [if_neg hcw]
        exact ⟨_, rfl, by simp [hcw]⟩
    · rw [if_neg hl]
      exact ⟨_, rfl, by simp [hl]⟩
  · rw [if_neg ht]
    dsimp only
    exact ⟨_, rfl, by simp [ht]⟩

/-- Witness for C6: a zero-length move in laser mode with SPINDLE-CW set
performs the single spindle RPM write. -/
theorem C6_witness :
    ∃ s1, mc_line qExt qSettings ![0, 0, 0] qPlCW qIdle [] = some (s1, []) ∧
      s1.effects =
        (if (![0, 0, 0] : Vec ℚ) = qIdle.plannerPos ∧
            qSettings.laserMode = true ∧ qPlCW.condition.spindleCW = true
         then qIdle.effects ++ [Effect.spindleSync qPlCW.spindle_speed]
         else qIdle.effects) :=
  C6_mc_line_laser_sync qExt qSettings ![0, 0, 0] qPlCW qIdle (by decide)
    (by decide) (by decide) (by decide) (by decide)

/-! Claim C7: check-mode no-op. -/

/-- No mutation of planner, stepper, spindle or coolant state: the planner
queue, the planner's tracked position and the device effect log are all
unchanged. -/
def noMut (t t1 : MCState A) : Prop :=
  t1.planner = t.planner ∧ t1.plannerPos = t.plannerPos ∧
    t1.effects = t.effects

lemma mc_line_check (X : Ext A) (St : Settings A) (target : Vec A)
    (pl : PlanData A) (s : MCState A) (e : List (RtAction A))
    (hc : s.state = SysState.check) :
    ∃ s1, mc_line X St target pl s e = some (s1, e) ∧ noMut s s1 ∧
      s1.state = s.state ∧ s1.sysPosition = s.sysPosition := by
  unfold mc_line
  dsimp only
  set s0 := (if St.softLimitEnable = true ∧ s.state ≠ SysState.jog then
      limits_soft_check X target s else s) with hs0
  have hfields : noMut s s0 ∧ s0.state = s.state ∧
      s0.sysPosition = s.sysPosition := by
    rw [hs0]
    unfold limits_soft_check
    split
    · split
      · exact ⟨⟨rfl, rfl, rfl⟩, rfl, rfl⟩
      · exact ⟨⟨rfl, rfl, rfl⟩, rfl, rfl⟩
    · exact ⟨⟨rfl, rfl, rfl⟩, rfl, rfl⟩
  rw [if_pos (hfields.2.1.trans hc)]
  exact ⟨s0, rfl, hfields.1, hfields.2.1, hfields.2.2⟩

lemma arcLoop_check (X : Ext ℝ) (St : Settings ℝ) (pl : PlanData ℝ)
    (off0 off1 theta c0 c1 lps : ℝ) (a0 a1 alin : Fin 3) :
    ∀ (fuel i : ℕ) (it : ArcIter) (pos : Vec ℝ) (s : MCState ℝ)
      (e : List (RtAction ℝ)), s.state = SysState.check →
      ∃ pos1 s1 b,
        arcLoop X St pl off0 off1 theta c0 c1 lps a0 a1 alin i fuel it pos
            s e = some (pos1, s1, e, b) ∧
          noMut s s1 ∧ s1.state = s.state := by
  intro fuel
  induction fuel with
  | zero =>
    intro i it pos s e hc
    exact ⟨pos, s, false, rfl, ⟨rfl, rfl, rfl⟩, rfl⟩
  | succ n ih =>
    intro i it pos s e hc
    unfold arcLoop
    dsimp only
    obtain ⟨s1, hline, hmut, hstate, hpos⟩ :=
      mc_line_check X St
        (arcPosUpdate c0 c1 lps a0 a1 alin
          (arcStep St.nArcCorrection off0 off1 theta i it) pos) pl s e hc
    rw [hline]
    dsimp only
    by_cases hab : s1.abort = true
    · rw [if_pos hab]
      exact ⟨_, s1, true, rfl, hmut, hstate⟩
    · rw [if_neg hab]
      obtain ⟨pos2, s2, b, hrec, hmut2, hstate2⟩ :=
        ih (i + 1)
          (arcStep St.nArcCorrection off0 off1 theta i it)
          (arcPosUpdate c0 c1 lps a0 a1 alin
            (arcStep St.nArcCorrection off0 off1 theta i it) pos)
          s1 e (hstate.trans hc)
      rw [hrec]
      exact ⟨pos2, s2, b, rfl,
        ⟨hmut2.1.trans hmut.1, hmut2.2.1.trans hmut.2.1,
         hmut2.2.2.trans hmut.2.2⟩, hstate2.trans hstate⟩

lemma mc_arc_check (X : Ext ℝ) (St : Settings ℝ) (target : Vec ℝ)
    (pl : PlanData ℝ) (position offset : Vec ℝ) (radius : ℝ)
    (a0 a1 alin : Fin 3) (cw : Bool) (s : MCState ℝ)
    (e : List (RtAction ℝ)) (hc : s.state = SysState.check) :
    ∃ pos1 pl1 s1,
      mc_arc X St target pl position offset radius a0 a1 alin cw s e =
          some (pos1, pl1, s1, e) ∧ noMut s s1 := by
  unfold mc_arc
  dsimp only
  split
  · obtain ⟨pos1, s1, b, hloop, hmut, hstate⟩ :=
      arcLoop_check X St _ _ _ _ _ _ _ a0 a1 alin
        (numSegments St.arc_tolerance
          (correctTravel (rawTravel position offset target a0 a1) cw)
          radius - 1) 1 ⟨-(offset a0), -(offset a1), 0⟩ position s e hc
    rw [hloop]
    dsimp only
    by_cases hb : b = true
    · rw [if_pos hb]
      exact ⟨pos1, _, s1, rfl, hmut⟩
    · rw [if_neg hb]
      obtain ⟨s2, hline, hmut2, _, _⟩ :=
        mc_line_check X St target _ s1 e (hstate.trans hc)
      rw [hline]
      exact ⟨pos1, _, s2, rfl,
        ⟨hmut2.1.trans hmut.1, hmut2.2.1.trans hmut.2.1,
         hmut2.2.2.trans hmut.2.2⟩⟩
  · obtain ⟨s1, hline, hmut, _, _⟩ := mc_line_check X St target pl s e hc
    rw [hline]
    exact ⟨position, pl, s1, rfl, hmut⟩

/-- Example check-mode state over ℚ. -/
def qCheck : MCState ℚ := { qIdle with state := SysState.check }

/-- Example external world over ℝ. -/
noncomputable def rExt : Ext ℝ := ⟨16, fun _ => false, false⟩

/-- Example settings over ℝ: arc_tolerance 0.002 mm, N_ARC_CORRECTION 12. -/
noncomputable def rSettings : Settings ℝ := ⟨false, false, 2 / 1000, 12⟩

/-- Example descriptor over ℝ. -/
noncomputable def rPl : PlanData ℝ := ⟨600, 1000, {}⟩

/-- Example descriptor over ℝ with INVERSE-TIME set. -/
noncomputable def rPlInv : PlanData ℝ := ⟨600, 1000, { inverseTime := true }⟩

/-- Example idle machine state over ℝ at x = 10 (the S2 scenario start). -/
noncomputable def rIdle : MCState ℝ :=
  { state := SysState.idle, abort := false, rtReset := false,
    rtCycleStart := false, rtAlarm := none, stepControlHold := false,
    stepControlSysMotion := false, probeSucceeded := false,
    sysProbeState := ProbeSt.off, probeInvertMask := false,
    sysPosition := ![10, 0, 0], probePosition := ![0, 0, 0], planner := [],
    plannerPos := ![10, 0, 0], effects := [] }

/-- Example check-mode state over ℝ. -/
noncomputable def rCheck : MCState ℝ := { rIdle with state := SysState.check }

/-- C7: while the system state is CHECK, mc_line, mc_arc, mc_dwell and
mc_probe_cycle all return without mutating planner, stepper, spindle or
coolant state: mc_line returns before submission, mc_dwell before
synchronizing or delaying, and mc_probe_cycle returns CHECK-MODE before any
motion. -/
theorem C7_check_mode_noop (X : Ext A) (St : Settings A) (target : Vec A)
    (pl : PlanData A) (seconds : A) (isAway isNoError : Bool)
    (s : MCState A) (e : List (RtAction A)) (XR : Ext ℝ) (StR : Settings ℝ)
    (targetR : Vec ℝ) (plR : PlanData ℝ) (positionR offsetR : Vec ℝ)
    (radius : ℝ) (a0 a1 alin : Fin 3) (cw : Bool) (sR : MCState ℝ)
    (eR : List (RtAction ℝ)) (hc : s.state = SysState.check)
    (hcR : sR.state = SysState.check) :
    (∃ s1, mc_line X St target pl s e = some (s1, e) ∧ noMut s s1) ∧
      mc_dwell seconds s e = (s, e) ∧
      mc_probe_cycle X St target pl isAway isNoError s e =
        some (ProbeResult.checkMode, s, e) ∧
      ∃ pos1 pl1 s1,
        mc_arc XR StR targetR plR positionR offsetR radius a0 a1 alin cw
            sR eR = some (pos1, pl1, s1, eR) ∧ noMut sR s1 := by
  refine ⟨?_, ?_, ?_, ?_⟩
  · obtain ⟨s1, h1, h2, _, _⟩ := mc_line_check X St target pl s e hc
    exact ⟨s1, h1, h2⟩
  · unfold mc_dwell
    rw [if_pos hc]
  · unfold mc_probe_cycle
    rw [if_pos hc]
  · exact mc_arc_check XR StR targetR plR positionR offsetR radius a0 a1
      alin cw sR eR hcR

/-- Witness for C7: concrete check-mode dwell and probe calls are exact
no-ops. -/
theorem C7_witness :
    mc_dwell (5 : ℚ) qCheck [] = (qCheck, []) ∧
      mc_probe_cycle qExt qSettings qTarget qPl false false qCheck [] =
        some (ProbeResult.checkMode, qCheck, []) :=
  ⟨(C7_check_mode_noop qExt qSettings qTarget qPl 5 false false qCheck []
      rExt rSettings ![10, 0, 0] rPl ![10, 0, 0] ![(-10), 0, 0] 10 0 1 2
      false rCheck [] rfl rfl).2.1,
   (C7_check_mode_noop qExt qSettings qTarget qPl 5 false false qCheck []
      rExt rSettings ![10, 0, 0] rPl ![10, 0, 0] ![(-10), 0, 0] 10 0 1 2
      false rCheck [] rfl rfl).2.2.1⟩

/-! Claim C5: direction correction of the angular travel. -/

lemma atan2_range (y x : ℝ) : -Real.pi < atan2 y x ∧ atan2 y x ≤ Real.pi := by
  have hpi := Real.pi_pos
  have harctan_lt := Real.arctan_lt_pi_div_two (y / x)
  have harctan_gt := Real.neg_pi_div_two_lt_arctan (y / x)
  unfold atan2
  by_cases hx : 0 < x
  · rw [if_pos hx]
    constructor <;> linarith
  · rw [if_neg hx]
    by_cases hx2 : x < 0
    · rw [if_pos hx2]
      by_cases hy : 0 ≤ y
      · rw [if_pos hy]
        have hdiv : y / x ≤ 0 := div_nonpos_of_nonneg_of_nonpos hy hx2.le
        have : Real.arctan (y / x) ≤ 0 := by
          have := Real.arctan_strictMono.monotone hdiv
          rwa [Real.arctan_zero] at this
        constructor <;> linarith
      · rw [if_neg hy]
        push_neg at hy
        have hdiv : 0 < y / x := div_pos_of_neg_of_neg hy hx2
        have : 0 < Real.arctan (y / x) := by
          have := Real.arctan_strictMono hdiv
          rwa [Real.arctan_zero] at this
        constructor <;> linarith
    · rw [if_neg hx2]
      by_cases hy1 : 0 < y
      · rw [if_pos hy1]
        constructor <;> linarith
      · rw [if_neg hy1]
        by_cases hy2 : y < 0
        · rw [if_pos hy2]
          constructor <;> linarith
        · rw [if_neg hy2]
          constructor <;> linarith

lemma correctTravel_cw (t : ℝ) :
    correctTravel t true =
      if -ARC_ANGULAR_TRAVEL_EPSILON ≤ t then t - 2 * M_PI else t := by
  unfold correctTravel
  rw [if_pos rfl]

lemma correctTravel_ccw (t : ℝ) :
    correctTravel t false =
      if t ≤ ARC_ANGULAR_TRAVEL_EPSILON then t + 2 * M_PI else t := by
  unfold correctTravel
  rw [if_neg Bool.false_ne_true]

lemma correctTravel_bounds (t : ℝ) (h1 : -Real.pi < t) (h2 : t ≤ Real.pi) :
    (-(2 * M_PI) - ARC_ANGULAR_TRAVEL_EPSILON ≤ correctTravel t true ∧
        correctTravel t true < 0) ∧
      (0 < correctTravel t false ∧
        correctTravel t false ≤ 2 * M_PI + ARC_ANGULAR_TRAVEL_EPSILON) ∧
      (|t| ≤ ARC_ANGULAR_TRAVEL_EPSILON →
        correctTravel t true = t - 2 * M_PI ∧
          correctTravel t false = t + 2 * M_PI) := by
  have hlt := Real.pi_lt_d6
  simp only [correctTravel_cw, correctTravel_ccw]
  unfold M_PI ARC_ANGULAR_TRAVEL_EPSILON
  refine ⟨?_, ?_, ?_⟩
  · split_ifs with h
    · constructor <;> linarith
    · push_neg at h
      constructor <;> linarith
  · split_ifs with h
    · constructor <;> linarith
    · push_neg at h
      constructor <;> linarith
  · intro habs
    rcases abs_le.mp habs with ⟨hl, hr⟩
    rw [if_pos (by linarith), if_pos (by linarith)]
    exact ⟨rfl, rfl⟩

/-- The S2 full-circle geometry: the raw atan2 travel from x = 10 around
centre (0,0) back to x = 10 is exactly 0. -/
lemma rawTravel_fullCircle :
    rawTravel ![10, 0, 0] ![(-10), 0, 0] ![10, 0, 0] 0 1 = 0 := by
  unfold rawTravel atan2
  norm_num [Real.arctan_zero]

/-- C5 (amended): for every mc_arc call, the corrected angular travel lies
in [-2·M_PI − ε, 0) for clockwise arcs and in (0, 2·M_PI + ε] for
counter-clockwise arcs, where M_PI is the source's 3.1415926 and ε is
ARC_ANGULAR_TRAVEL_EPSILON; travel within ε of 0 (a full circle) becomes
the raw travel ± 2·M_PI — approximately, but not exactly, ±2π. -/
theorem C5_direction (position offset target : Vec ℝ) (a0 a1 : Fin 3) :
    (-(2 * M_PI) - ARC_ANGULAR_TRAVEL_EPSILON ≤
          correctTravel (rawTravel position offset target a0 a1) true ∧
        correctTravel (rawTravel position offset target a0 a1) true < 0) ∧
      (0 < correctTravel (rawTravel position offset target a0 a1) false ∧
        correctTravel (rawTravel position offset target a0 a1) false ≤
          2 * M_PI + ARC_ANGULAR_TRAVEL_EPSILON) ∧
      (|rawTravel position offset target a0 a1| ≤
          ARC_ANGULAR_TRAVEL_EPSILON →
        correctTravel (rawTravel position offset target a0 a1) true =
            rawTravel position offset target a0 a1 - 2 * M_PI ∧
          correctTravel (rawTravel position offset target a0 a1) false =
            rawTravel position offset target a0 a1 + 2 * M_PI) := by
  obtain ⟨h1, h2⟩ := atan2_range
    (-(offset a0) * (target a1 - (position a1 + offset a1)) -
      -(offset a1) * (target a0 - (position a0 + offset a0)))
    (-(offset a0) * (target a0 - (position a0 + offset a0)) +
      -(offset a1) * (target a1 - (position a1 + offset a1)))
  exact correctTravel_bounds (rawTravel position offset target a0 a1) h1 h2

/-- Counterexample to C5 as stated: the counter-clockwise full-circle
travel produced by the direction correction is 2·M_PI = 6.2831852, which is
not 2π (the claim says full circles yield ±2π). -/
theorem C5_counterexample :
    correctTravel (rawTravel ![10, 0, 0] ![(-10), 0, 0] ![10, 0, 0] 0 1)
        false ≠ 2 * Real.pi := by
  rw [rawTravel_fullCircle, correctTravel_ccw]
  rw [if_pos (by unfold ARC_ANGULAR_TRAVEL_EPSILON; norm_num)]
  unfold M_PI
  intro h
  have := Real.pi_gt_d20
  norm_num at h
  linarith

/-- Witness for C5: the full-circle clause applied to the concrete S2
geometry, whose raw travel is 0. -/
theorem C5_witness :
    correctTravel (rawTravel ![10, 0, 0] ![(-10), 0, 0] ![10, 0, 0] 0 1)
        false =
      rawTravel ![10, 0, 0] ![(-10), 0, 0] ![10, 0, 0] 0 1 + 2 * M_PI :=
  ((C5_direction ![10, 0, 0] ![(-10), 0, 0] ![10, 0, 0] 0 1).2.2
    (by rw [rawTravel_fullCircle]
        unfold ARC_ANGULAR_TRAVEL_EPSILON
        norm_num)).2

/-! Quiet-run lemmas: with an exhausted environment schedule, no pending
reset and no abort, the gateway's loops exit deterministically. -/

/-- Agreement on every control field that a quiet run never changes (all
fields except the planner queue, the machine position and the effect log). -/
def agreeCtl (s t : MCState A) : Prop :=
  t.state = s.state ∧ t.abort = s.abort ∧ t.rtReset = s.rtReset ∧
    t.rtCycleStart = s.rtCycleStart ∧ t.rtAlarm = s.rtAlarm ∧
    t.stepControlHold = s.stepControlHold ∧
    t.stepControlSysMotion = s.stepControlSysMotion ∧
    t.probeSucceeded = s.probeSucceeded ∧
    t.sysProbeState = s.sysProbeState ∧
    t.probeInvertMask = s.probeInvertMask ∧
    t.probePosition = s.probePosition

lemma agreeCtl_refl (s : MCState A) : agreeCtl s s :=
  ⟨rfl, rfl, rfl, rfl, rfl, rfl, rfl, rfl, rfl, rfl, rfl⟩

lemma agreeCtl_trans {s t u : MCState A} (h1 : agreeCtl s t)
    (h2 : agreeCtl t u) : agreeCtl s u :=
  ⟨h2.1.trans h1.1, h2.2.1.trans h1.2.1, h2.2.2.1.trans h1.2.2.1,
   h2.2.2.2.1.trans h1.2.2.2.1, h2.2.2.2.2.1.trans h1.2.2.2.2.1,
   h2.2.2.2.2.2.1.trans h1.2.2.2.2.2.1,
   h2.2.2.2.2.2.2.1.trans h1.2.2.2.2.2.2.1,
   h2.2.2.2.2.2.2.2.1.trans h1.2.2.2.2.2.2.2.1,
   h2.2.2.2.2.2.2.2.2.1.trans h1.2.2.2.2.2.2.2.2.1,
   h2.2.2.2.2.2.2.2.2.2.1.trans h1.2.2.2.2.2.2.2.2.2.1,
   h2.2.2.2.2.2.2.2.2.2.2.trans h1.2.2.2.2.2.2.2.2.2.2⟩

lemma backpressureAux_quiet (X : Ext A) (hcap : 1 ≤ X.cap) :
    ∀ (n : ℕ) (s : MCState A), s.abort = false → s.rtReset = false →
      s.planner.length < n →
      ∃ s1, backpressureAux X n s [] = some (s1, []) ∧ agreeCtl s s1 ∧
        s1.plannerPos = s.plannerPos ∧ s1.effects = s.effects ∧
        s1.planner.length < X.cap := by
  intro n
  induction n with
  | zero =>
    intro s _ _ h
    exact absurd h (Nat.not_lt_zero _)
  | succ n ih =>
    intro s ha hr hlen
    unfold backpressureAux
    dsimp only
    rw [applyRt_quiet s ha hr]
    rw [if_neg (by simp [ha])]
    by_cases hfull : X.cap ≤ s.planner.length
    · rw [if_pos hfull]
      obtain ⟨t, rest, hplan⟩ : ∃ t rest, s.planner = t :: rest := by
        cases hp : s.planner with
        | nil =>
          rw [hp] at hfull
          simp at hfull
          omega
        | cons t rest => exact ⟨t, rest, rfl⟩
      have hauto : protocol_auto_cycle_start s =
          { s with planner := rest, sysPosition := t } := by
        unfold protocol_auto_cycle_start
        rw [hplan]
      rw [hauto]
      obtain ⟨s1, hrec, hagree, hpp, heff, hlt⟩ :=
        ih { s with planner := rest, sysPosition := t } ha hr
          (by
            have : s.planner.length = rest.length + 1 := by
              rw [hplan, List.length_cons]
            simp only [List.length]
            omega)
      have hstep : agreeCtl s { s with planner := rest, sysPosition := t } :=
        ⟨rfl, rfl, rfl, rfl, rfl, rfl, rfl, rfl, rfl, rfl, rfl⟩
      exact ⟨s1, hrec, agreeCtl_trans hstep hagree, hpp, heff, hlt⟩
    · rw [if_neg hfull]
      exact ⟨s, rfl, agreeCtl_refl s, rfl, rfl, Nat.lt_of_not_le hfull⟩

lemma backpressure_quiet (X : Ext A) (s : MCState A) (hcap : 1 ≤ X.cap)
    (ha : s.abort = false) (hr : s.rtReset = false) :
    ∃ s1, backpressure X s [] = some (s1, []) ∧ agreeCtl s s1 ∧
      s1.plannerPos = s.plannerPos ∧ s1.effects = s.effects ∧
      s1.planner.length < X.cap := by
  obtain ⟨s1, h, rest⟩ :=
    backpressureAux_quiet X hcap (s.planner.length + 1) s ha hr
      (Nat.lt_succ_self _)
  exact ⟨s1, by simpa [backpressure] using h, rest⟩

/-- mc_line with a quiet schedule, soft limits off, no abort, no pending
reset, outside check mode: the call returns, leaves every control field
unchanged and sets the planner position to the target. -/
lemma mc_line_quiet (X : Ext A) (St : Settings A) (target : Vec A)
    (pl : PlanData A) (s : MCState A)
    (hsl : St.softLimitEnable = false) (hc : s.state ≠ SysState.check)
    (ha : s.abort = false) (hr : s.rtReset = false) (hcap : 1 ≤ X.cap) :
    ∃ s1, mc_line X St target pl s [] = some (s1, []) ∧ agreeCtl s s1 ∧
      s1.plannerPos = target := by
  unfold mc_line
  dsimp only
  have hs0 : (if St.softLimitEnable = true ∧ s.state ≠ SysState.jog then
      limits_soft_check X target s else s) = s := by simp [hsl]
  rw [hs0, if_neg hc]
  obtain ⟨s1, hbp, hagree, hpp, heff, hlt⟩ :=
    backpressure_quiet X s hcap ha hr
  rw [hbp]
  dsimp only
  rw [if_neg (by simp [hagree.2.1.trans ha])]
  unfold plan_buffer_line
  by_cases ht : target = s1.plannerPos
  · rw [if_pos ht]
    dsimp only
    by_cases hl : St.laserMode = true
    · rw [if_pos hl]
      by_cases hcw : pl.condition.spindleCW = true
      · rw [if_pos hcw]
        exact ⟨_, rfl,
          agreeCtl_trans hagree
            ⟨rfl, rfl, rfl, rfl, rfl, rfl, rfl, rfl, rfl, rfl, rfl⟩,
          ht.symm⟩
      · rw [if_neg hcw]
        exact ⟨s1, rfl, hagree, ht.symm⟩
    · rw [if_neg hl]
      exact ⟨s1, rfl, hagree, ht.symm⟩
  · rw [if_neg ht]
    dsimp only
    refine ⟨_, rfl, ?_, rfl⟩
    exact agreeCtl_trans hagree
      ⟨rfl, rfl, rfl, rfl, rfl, rfl, rfl, rfl, rfl, rfl, rfl⟩

/-- mc_line with a quiet schedule, a non-full planner and a genuinely new
target appends exactly that target to the planner queue. -/
lemma mc_line_quiet_append (X : Ext A) (St : Settings A) (target : Vec A)
    (pl : PlanData A) (s : MCState A)
    (hsl : St.softLimitEnable = false) (hc : s.state ≠ SysState.check)
    (ha : s.abort = false) (hr : s.rtReset = false)
    (hcap : s.planner.length < X.cap) (ht : ¬target = s.plannerPos) :
    mc_line X St target pl s [] =
      some ({ s with
                planner := s.planner ++ [target]
                plannerPos := target }, []) := by
  unfold mc_line
  dsimp only
  have hs0 : (if St.softLimitEnable = true ∧ s.state ≠ SysState.jog then
      limits_soft_check X target s else s) = s := by simp [hsl]
  rw [hs0, if_neg hc, backpressure_quick X s ha hr hcap]
  dsimp only
  rw [if_neg (by simp [ha])]
  unfold plan_buffer_line
  rw [if_neg ht]
  dsimp only
  rw [if_neg Bool.false_ne_true]

/-- The segment count mc_arc computes for the given call. -/
noncomputable def arcSegs (St : Settings ℝ) (position offset target : Vec ℝ)
    (radius : ℝ) (a0 a1 : Fin 3) (cw : Bool) : ℕ :=
  numSegments St.arc_tolerance
    (correctTravel (rawTravel position offset target a0 a1) cw) radius

/-- The final contents of the caller's plan-line descriptor after mc_arc:
mutated (feed rate multiplied by the segment count, INVERSE-TIME cleared)
exactly when the segment count is non-zero and INVERSE-TIME was set. -/
noncomputable def arcPlData (St : Settings ℝ) (pl : PlanData ℝ)
    (position offset target : Vec ℝ) (radius : ℝ) (a0 a1 : Fin 3)
    (cw : Bool) : PlanData ℝ :=
  if arcSegs St position offset target radius a0 a1 cw ≠ 0 ∧
      pl.condition.inverseTime = true then
    { pl with
        feed_rate := pl.feed_rate *
          (arcSegs St position offset target radius a0 a1 cw : ℝ)
        condition := { pl.condition with inverseTime := false } }
  else pl

/-- The contents of the caller's position array when mc_arc returns from a
completed run with a non-zero segment count. -/
noncomputable def arcFinalPos (St : Settings ℝ)
    (position offset target : Vec ℝ) (radius : ℝ) (a0 a1 alin : Fin 3)
    (cw : Bool) : Vec ℝ :=
  (arcPure St.nArcCorrection (-(offset a0)) (-(offset a1))
    (correctTravel (rawTravel position offset target a0 a1) cw /
      (numSegments St.arc_tolerance
        (correctTravel (rawTravel position offset target a0 a1) cw)
        radius : ℕ))
    (position a0 + offset a0) (position a1 + offset a1)
    ((target alin - position alin) /
      (numSegments St.arc_tolerance
        (correctTravel (rawTravel position offset target a0 a1) cw)
        radius : ℕ))
    a0 a1 alin 1
    (numSegments St.arc_tolerance
      (correctTravel (rawTravel position offset target a0 a1) cw) radius - 1)
    ⟨-(offset a0), -(offset a1), 0⟩ position).2

lemma arcLoop_quiet (X : Ext ℝ) (St : Settings ℝ) (pl : PlanData ℝ)
    (off0 off1 theta c0 c1 lps : ℝ) (a0 a1 alin : Fin 3)
    (hsl : St.softLimitEnable = false) (hcap : 1 ≤ X.cap) :
    ∀ (fuel i : ℕ) (it : ArcIter) (pos : Vec ℝ) (s : MCState ℝ),
      s.state ≠ SysState.check → s.abort = false → s.rtReset = false →
      ∃ s1,
        arcLoop X St pl off0 off1 theta c0 c1 lps a0 a1 alin i fuel it pos
            s [] =
          some ((arcPure St.nArcCorrection off0 off1 theta c0 c1 lps a0 a1
              alin i fuel it pos).2, s1, [], false) ∧
          agreeCtl s s1 := by
  intro fuel
  induction fuel with
  | zero =>
    intro i it pos s hc ha hr
    exact ⟨s, rfl, agreeCtl_refl s⟩
  | succ n ih =>
    intro i it pos s hc ha hr
    unfold arcLoop arcPure
    dsimp only
    obtain ⟨s1, hline, hagree, hpp⟩ :=
      mc_line_quiet X St
        (arcPosUpdate c0 c1 lps a0 a1 alin
          (arcStep St.nArcCorrection off0 off1 theta i it) pos)
        pl s hsl hc ha hr hcap
    rw [hline]
    dsimp only
    rw [if_neg (by simp [hagree.2.1.trans ha])]
    obtain ⟨s2, hrec, hagree2⟩ :=
      ih (i + 1) (arcStep St.nArcCorrection off0 off1 theta i it)
        (arcPosUpdate c0 c1 lps a0 a1 alin
          (arcStep St.nArcCorrection off0 off1 theta i it) pos)
        s1 (by rw [hagree.1]; exact hc) (hagree.2.1.trans ha)
        (hagree.2.2.1.trans hr)
    rw [hrec]
    exact ⟨s2, rfl, agreeCtl_trans hagree hagree2⟩

/-- The quiet-run behaviour of mc_arc: the call returns with the descriptor
contents given by arcPlData, the planner position at the caller's target,
all control fields unchanged, and the position array at arcFinalPos when
the segment count is non-zero (unchanged when it is zero). -/
lemma mc_arc_quiet (X : Ext ℝ) (St : Settings ℝ) (target : Vec ℝ)
    (pl : PlanData ℝ) (position offset : Vec ℝ) (radius : ℝ)
    (a0 a1 alin : Fin 3) (cw : Bool) (s : MCState ℝ)
    (hsl : St.softLimitEnable = false) (hc : s.state ≠ SysState.check)
    (ha : s.abort = false) (hr : s.rtReset = false) (hcap : 1 ≤ X.cap) :
    ∃ pos1 s1,
      mc_arc X St target pl position offset radius a0 a1 alin cw s [] =
        some (pos1,
          arcPlData St pl position offset target radius a0 a1 cw, s1, []) ∧
      agreeCtl s s1 ∧ s1.plannerPos = target ∧
      (arcSegs St position offset target radius a0 a1 cw ≠ 0 →
        pos1 = arcFinalPos St position offset target radius a0 a1 alin cw) ∧
      (arcSegs St position offset target radius a0 a1 cw = 0 →
        pos1 = position) := by
  unfold mc_arc
  dsimp only
  by_cases hseg : numSegments St.arc_tolerance
      (correctTravel (rawTravel position offset target a0 a1) cw) radius ≠ 0
  · rw [if_pos hseg]
    obtain ⟨s1, hloop, hagree⟩ :=
      arcLoop_quiet X St
        (if pl.condition.inverseTime = true then
          { pl with
              feed_rate := pl.feed_rate *
                (numSegments St.arc_tolerance
                  (correctTravel (rawTravel position offset target a0 a1) cw)
                  radius : ℕ)
              condition := { pl.condition with inverseTime := false } }
         else pl)
        (-(offset a0)) (-(offset a1))
        (correctTravel (rawTravel position offset target a0 a1) cw /
          (numSegments St.arc_tolerance
            (correctTravel (rawTravel position offset target a0 a1) cw)
            radius : ℕ))
        (position a0 + offset a0) (position a1 + offset a1)
        ((target alin - position alin) /
          (numSegments St.arc_tolerance
            (correctTravel (rawTravel position offset target a0 a1) cw)
            radius : ℕ))
        a0 a1 alin hsl hcap
        (numSegments St.arc_tolerance
          (correctTravel (rawTravel position offset target a0 a1) cw)
          radius - 1)
        1 ⟨-(offset a0), -(offset a1), 0⟩ position s hc ha hr
    rw [hloop]
    dsimp only
    rw [if_neg Bool.false_ne_true]
    obtain ⟨s2, hline2, hagree2, hpp2⟩ :=
      mc_line_quiet X St target _ s1 hsl (by rw [hagree.1]; exact hc)
        (hagree.2.1.trans ha) (hagree.2.2.1.trans hr) hcap
    rw [hline2]
    dsimp only
    have hpl : (if pl.condition.inverseTime = true then
        ({ pl with
            feed_rate := pl.feed_rate *
              (numSegments St.arc_tolerance
                (correctTravel (rawTravel position offset target a0 a1) cw)
                radius : ℕ)
            condition :=
              { pl.condition with inverseTime := false } } : PlanData ℝ)
       else pl) =
        arcPlData St pl position offset target radius a0 a1 cw := by
      unfold arcPlData arcSegs
      by_cases hit : pl.condition.inverseTime = true
      · rw [if_pos hit, if_pos ⟨hseg, hit⟩]
      · rw [if_neg hit, if_neg (by simp [hit])]
    rw [hpl]
    refine ⟨_, s2, rfl, agreeCtl_trans hagree hagree2, hpp2, ?_, ?_⟩
    · intro _
      unfold arcFinalPos
      rfl
    · intro h0
      exact absurd h0 hseg
  · rw [if_neg hseg]
    obtain ⟨s1, hline, hagree, hpp⟩ :=
      mc_line_quiet X St target pl s hsl hc ha hr hcap
    rw [hline]
    refine ⟨position, s1, ?_, hagree, hpp, ?_, fun _ => rfl⟩
    · have hpl : arcPlData St pl position offset target radius a0 a1 cw =
          pl := by
        unfold arcPlData arcSegs
        rw [if_neg (by simp only [not_not] at hseg; simp [hseg])]
      rw [hpl]
    · intro hne
      exact (hne (not_not.mp hseg)).elim

/-! Numeric facts for the S2 full-circle scenario: radius 10 mm, full
circle, arc_tolerance 0.002 mm. -/

/-- The corrected travel of the S2 counter-clockwise full circle. -/
lemma travel_S2 :
    correctTravel (rawTravel ![10, 0, 0] ![(-10), 0, 0] ![10, 0, 0] 0 1)
      false = 2 * M_PI := by
  rw [rawTravel_fullCircle, correctTravel_ccw,
    if_pos (by unfold ARC_ANGULAR_TRAVEL_EPSILON; norm_num)]
  ring

/-- The S2 segment count: floor(31.415926 / sqrt(0.039996)) = 157. -/
lemma numSegments_S2 : numSegments (2 / 1000) (2 * M_PI) 10 = 157 := by
  unfold numSegments M_PI
  have harg : (2 / 1000 * (2 * 10 - 2 / 1000) : ℝ) = 0.039996 := by norm_num
  rw [harg]
  have ht2 : Real.sqrt 0.039996 ^ 2 = 0.039996 :=
    Real.sq_sqrt (by norm_num)
  have ht0 : 0 < Real.sqrt 0.039996 := Real.sqrt_pos.mpr (by norm_num)
  have habs : |0.5 * (2 * (3.1415926 : ℝ)) * 10| = 31.415926 := by
    rw [abs_of_nonneg (by norm_num)]
    norm_num
  rw [habs]
  rw [Nat.floor_eq_iff (by positivity)]
  constructor
  · rw [le_div_iff ht0]
    nlinarith [ht2, ht0]
  · rw [div_lt_iff ht0]
    push_cast
    nlinarith [ht2, ht0]

/-- The S2 segment count expressed through arcSegs at the example
settings. -/
lemma arcSegs_S2 :
    arcSegs rSettings ![10, 0, 0] ![(-10), 0, 0] ![10, 0, 0] 10 0 1 false =
      157 := by
  unfold arcSegs
  rw [show rSettings.arc_tolerance = (2 / 1000 : ℝ) from rfl, travel_S2,
    numSegments_S2]

/-! Claim C3: endpoint exactness. -/

/-- C3: every quiet mc_arc run (the abort flag is never observed set, state
not CHECK) completes with the final planner submission made to the caller's
target vector itself, so the tracked machine position after the call equals
target exactly; this holds for every segment count, including zero. -/
theorem C3_endpoint_exact (X : Ext ℝ) (St : Settings ℝ) (target : Vec ℝ)
    (pl : PlanData ℝ) (position offset : Vec ℝ) (radius : ℝ)
    (a0 a1 alin : Fin 3) (cw : Bool) (s : MCState ℝ)
    (hsl : St.softLimitEnable = false) (hc : s.state ≠ SysState.check)
    (ha : s.abort = false) (hr : s.rtReset = false) (hcap : 1 ≤ X.cap) :
    ∃ pos1 pl1 s1,
      mc_arc X St target pl position offset radius a0 a1 alin cw s [] =
          some (pos1, pl1, s1, []) ∧
        s1.abort = false ∧ s1.plannerPos = target := by
  obtain ⟨pos1, s1, heq, hagree, hpp, _, _⟩ :=
    mc_arc_quiet X St target pl position offset radius a0 a1 alin cw s hsl
      hc ha hr hcap
  exact ⟨pos1, _, s1, heq, hagree.2.1.trans ha, hpp⟩

/-- Witness for C3: the S2 full-circle run ends with the planner position
exactly at the caller's target. -/
theorem C3_witness :
    ∃ pos1 pl1 s1,
      mc_arc rExt rSettings ![10, 0, 0] rPl ![10, 0, 0] ![(-10), 0, 0] 10
          0 1 2 false rIdle [] = some (pos1, pl1, s1, []) ∧
        s1.abort = false ∧ s1.plannerPos = ![10, 0, 0] :=
  C3_endpoint_exact rExt rSettings ![10, 0, 0] rPl ![10, 0, 0]
    ![(-10), 0, 0] 10 0 1 2 false rIdle rfl (by decide) rfl rfl
    (by decide)

/-! Claim C9: descriptor mutation. -/

/-- C9 (amended): a quiet mc_arc call returns with the caller's descriptor
holding arcPlData: mutated in place — feed rate multiplied by the segment
count and the INVERSE-TIME bit cleared — exactly when the segment count is
non-zero and INVERSE-TIME was set, and unchanged in every other case.  The
claim as stated (descriptor never mutated) is refuted by the
counterexample. -/
theorem C9_descriptor_mutation (X : Ext ℝ) (St : Settings ℝ)
    (target : Vec ℝ) (pl : PlanData ℝ) (position offset : Vec ℝ)
    (radius : ℝ) (a0 a1 alin : Fin 3) (cw : Bool) (s : MCState ℝ)
    (hsl : St.softLimitEnable = false) (hc : s.state ≠ SysState.check)
    (ha : s.abort = false) (hr : s.rtReset = false) (hcap : 1 ≤ X.cap) :
    ∃ pos1 s1,
      mc_arc X St target pl position offset radius a0 a1 alin cw s [] =
        some (pos1,
          arcPlData St pl position offset target radius a0 a1 cw, s1,
          []) ∧
      ((arcSegs St position offset target radius a0 a1 cw = 0 ∨
          pl.condition.inverseTime = false) →
        arcPlData St pl position offset target radius a0 a1 cw = pl) := by
  obtain ⟨pos1, s1, heq, _, _, _, _⟩ :=
    mc_arc_quiet X St target pl position offset radius a0 a1 alin cw s hsl
      hc ha hr hcap
  refine ⟨pos1, s1, heq, ?_⟩
  intro h
  unfold arcPlData
  rcases h with h | h
  · rw [if_neg (by simp [h])]
  · rw [if_neg (by simp [h])]

/-- Witness for C9: the quiet S2 run; with a descriptor whose INVERSE-TIME
bit is clear the returned descriptor is unchanged. -/
theorem C9_witness :
    ∃ pos1 s1,
      mc_arc rExt rSettings ![10, 0, 0] rPl ![10, 0, 0] ![(-10), 0, 0] 10
          0 1 2 false rIdle [] =
        some (pos1,
          arcPlData rSettings rPl ![10, 0, 0] ![(-10), 0, 0] ![10, 0, 0]
            10 0 1 false, s1, []) ∧
      ((arcSegs rSettings ![10, 0, 0] ![(-10), 0, 0] ![10, 0, 0] 10 0 1
            false = 0 ∨ rPl.condition.inverseTime = false) →
        arcPlData rSettings rPl ![10, 0, 0] ![(-10), 0, 0] ![10, 0, 0] 10
          0 1 false = rPl) :=
  C9_descriptor_mutation rExt rSettings ![10, 0, 0] rPl ![10, 0, 0]
    ![(-10), 0, 0] 10 0 1 2 false rIdle rfl (by decide) rfl rfl
    (by decide)

/-- C9 counterexample: at the S2 call with INVERSE-TIME set, the descriptor
mc_arc leaves behind has the INVERSE-TIME bit cleared, unlike the caller's
descriptor — the claim that the caller's descriptor is never mutated is
false. -/
theorem C9_counterexample :
    (mc_arc rExt rSettings ![10, 0, 0] rPlInv ![10, 0, 0] ![(-10), 0, 0]
        10 0 1 2 false rIdle []).map
        (fun r => r.2.1.condition.inverseTime) = some false ∧
      rPlInv.condition.inverseTime = true := by
  constructor
  · obtain ⟨pos1, s1, heq, _, _, _, _⟩ :=
      mc_arc_quiet rExt rSettings ![10, 0, 0] rPlInv ![10, 0, 0]
        ![(-10), 0, 0] 10 0 1 2 false rIdle rfl (by decide) rfl rfl
        (by decide)
    rw [heq]
    simp only [Option.map_some']
    have harc : (arcPlData rSettings rPlInv ![10, 0, 0] ![(-10), 0, 0]
        ![10, 0, 0] 10 0 1 false).condition.inverseTime = false := by
      unfold arcPlData
      rw [if_pos ⟨by rw [arcSegs_S2]; norm_num, rfl⟩]
    rw [harc]
  · rfl

/-! Claim C4: segment count. -/

/-- A tiny quarter-circle whose travel is π/2: start (0.002, 0), centre the
origin, target (0, 0.002). -/
lemma rawTravel_quarter :
    rawTravel ![1 / 500, 0, 0] ![-(1 / 500), 0, 0] ![0, 1 / 500, 0] 0 1 =
      Real.pi / 2 := by
  unfold rawTravel atan2
  norm_num

/-- The quarter-circle of radius 0.002 at tolerance 0.002 produces zero
segments. -/
lemma arcSegs_quarter :
    arcSegs rSettings ![1 / 500, 0, 0] ![-(1 / 500), 0, 0] ![0, 1 / 500, 0]
      (1 / 500) 0 1 false = 0 := by
  unfold arcSegs
  rw [show rSettings.arc_tolerance = (2 / 1000 : ℝ) from rfl,
    rawTravel_quarter, correctTravel_ccw,
    if_neg (by
      unfold ARC_ANGULAR_TRAVEL_EPSILON
      push_neg
      nlinarith [Real.pi_gt_three])]
  unfold numSegments
  have hs : Real.sqrt (2 / 1000 * (2 * (1 / 500) - 2 / 1000)) =
      (1 / 500 : ℝ) := by
    rw [show (2 / 1000 * (2 * (1 / 500) - 2 / 1000) : ℝ) = (1 / 500) ^ 2 by
        norm_num,
      Real.sqrt_sq (by norm_num)]
  rw [hs, Nat.floor_eq_zero, abs_of_nonneg (by positivity),
    div_lt_one (by norm_num)]
  nlinarith [Real.pi_lt_four]

/-- C4: the segment count of every mc_arc call equals
floor(|0.5·travel·radius| / sqrt(arc_tolerance·(2·radius − arc_tolerance)))
(first conjunct, definitional); at the S2 inputs the count is 157 (second
conjunct); and a quiet call whose count is 0 skips the interior loop and
degenerates to the single direct line submission to target (third
conjunct). -/
theorem C4_segment_count :
    (∀ tol travel radius : ℝ,
      numSegments tol travel radius =
        ⌊|0.5 * travel * radius| /
            Real.sqrt (tol * (2 * radius - tol))⌋₊) ∧
      numSegments (2 / 1000)
          (correctTravel
            (rawTravel ![10, 0, 0] ![(-10), 0, 0] ![10, 0, 0] 0 1) false)
          10 = 157 ∧
      (∀ (X : Ext ℝ) (St : Settings ℝ) (target : Vec ℝ) (pl : PlanData ℝ)
          (position offset : Vec ℝ) (radius : ℝ) (a0 a1 alin : Fin 3)
          (cw : Bool) (s : MCState ℝ),
        St.softLimitEnable = false → s.state ≠ SysState.check →
        s.abort = false → s.rtReset = false →
        s.planner.length < X.cap → ¬target = s.plannerPos →
        arcSegs St position offset target radius a0 a1 cw = 0 →
        mc_arc X St target pl position offset radius a0 a1 alin cw s [] =
          some (position, pl,
            { s with
                planner := s.planner ++ [target]
                plannerPos := target }, [])) := by
  refine ⟨fun tol travel radius => rfl, ?_, ?_⟩
  · rw [travel_S2, numSegments_S2]
  · intro X St target pl position offset radius a0 a1 alin cw s hsl hc ha
      hr hcap ht hseg
    have hseg1 : numSegments St.arc_tolerance
        (correctTravel (rawTravel position offset target a0 a1) cw)
        radius = 0 := hseg
    unfold mc_arc
    dsimp only
    rw [if_neg (not_ne_iff.mpr hseg1),
      mc_line_quiet_append X St target pl s hsl hc ha hr hcap ht]

/-- Witness for C4: the degenerate quarter-circle call submits exactly the
single direct line to target. -/
theorem C4_witness :
    mc_arc rExt rSettings ![0, 1 / 500, 0] rPl ![1 / 500, 0, 0]
        ![-(1 / 500), 0, 0] (1 / 500) 0 1 2 false rIdle [] =
      some (![1 / 500, 0, 0], rPl,
        { rIdle with
            planner := rIdle.planner ++ [![0, 1 / 500, 0]]
            plannerPos := ![0, 1 / 500, 0] }, []) :=
  C4_segment_count.2.2 rExt rSettings ![0, 1 / 500, 0] rPl
    ![1 / 500, 0, 0] ![-(1 / 500), 0, 0] (1 / 500) 0 1 2 false rIdle rfl
    (by decide) rfl rfl (by decide)
    (by
      intro h
      have h0 := congrFun h 0
      norm_num [rIdle] at h0)
    arcSegs_quarter

/-! Claim C10: in-place mutation of the position array. -/

lemma arcPure_spec (N : ℕ) (off0 off1 theta c0 c1 lps : ℝ)
    (a0 a1 alin : Fin 3) (hd1 : a0 ≠ a1) (hd2 : a0 ≠ alin)
    (hd3 : a1 ≠ alin) :
    ∀ (fuel i : ℕ) (it : ArcIter) (pos : Vec ℝ),
      pos a0 = c0 + it.r0 → pos a1 = c1 + it.r1 →
      (arcPure N off0 off1 theta c0 c1 lps a0 a1 alin i fuel it pos).2 a0 =
          c0 + (iterFold N off0 off1 theta i fuel it).r0 ∧
        (arcPure N off0 off1 theta c0 c1 lps a0 a1 alin i fuel it
            pos).2 a1 =
          c1 + (iterFold N off0 off1 theta i fuel it).r1 ∧
        (arcPure N off0 off1 theta c0 c1 lps a0 a1 alin i fuel it
            pos).2 alin = pos alin + fuel * lps ∧
        ∀ j, j ≠ a0 → j ≠ a1 → j ≠ alin →
          (arcPure N off0 off1 theta c0 c1 lps a0 a1 alin i fuel it
            pos).2 j = pos j := by
  intro fuel
  induction fuel with
  | zero =>
    intro i it pos h0 h1
    exact ⟨h0, h1, by unfold arcPure; simp, fun j _ _ _ => rfl⟩
  | succ n ih =>
    intro i it pos h0 h1
    unfold arcPure iterFold
    dsimp only
    have hp0 : arcPosUpdate c0 c1 lps a0 a1 alin
        (arcStep N off0 off1 theta i it) pos a0 =
        c0 + (arcStep N off0 off1 theta i it).r0 := by
      unfold arcPosUpdate
      rw [Function.update_noteq hd2, Function.update_noteq hd1,
        Function.update_same]
    have hp1 : arcPosUpdate c0 c1 lps a0 a1 alin
        (arcStep N off0 off1 theta i it) pos a1 =
        c1 + (arcStep N off0 off1 theta i it).r1 := by
      unfold arcPosUpdate
      rw [Function.update_noteq hd3, Function.update_same]
    have hplin : arcPosUpdate c0 c1 lps a0 a1 alin
        (arcStep N off0 off1 theta i it) pos alin = pos alin + lps := by
      unfold arcPosUpdate
      rw [Function.update_same, Function.update_noteq (Ne.symm hd3),
        Function.update_noteq (Ne.symm hd2)]
    have hother : ∀ j, j ≠ a0 → j ≠ a1 → j ≠ alin →
        arcPosUpdate c0 c1 lps a0 a1 alin
          (arcStep N off0 off1 theta i it) pos j = pos j := by
      intro j hj0 hj1 hj2
      unfold arcPosUpdate
      rw [Function.update_noteq hj2, Function.update_noteq hj1,
        Function.update_noteq hj0]
    obtain ⟨ih0, ih1, ih2, ih3⟩ :=
      ih (i + 1) (arcStep N off0 off1 theta i it)
        (arcPosUpdate c0 c1 lps a0 a1 alin
          (arcStep N off0 off1 theta i it) pos) hp0 hp1
    refine ⟨ih0, ih1, ?_, ?_⟩
    · rw [ih2, hplin]
      push_cast
      ring
    · intro j hj0 hj1 hj2
      exact (ih3 j hj0 hj1 hj2).trans (hother j hj0 hj1 hj2)

/-- C10: a quiet mc_arc call with at least two segments and distinct axes
returns with the caller's position array mutated in place to the last
intermediate interpolated point: centre plus the radius vector after
segments−1 steps of the incremental rotation in the arc plane, the linear
axis advanced by segments−1 per-segment increments, and every other axis
untouched — not the target vector. -/
theorem C10_position_in_place (X : Ext ℝ) (St : Settings ℝ)
    (target : Vec ℝ) (pl : PlanData ℝ) (position offset : Vec ℝ)
    (radius : ℝ) (a0 a1 alin : Fin 3) (cw : Bool) (s : MCState ℝ)
    (hsl : St.softLimitEnable = false) (hc : s.state ≠ SysState.check)
    (ha : s.abort = false) (hr : s.rtReset = false) (hcap : 1 ≤ X.cap)
    (hd1 : a0 ≠ a1) (hd2 : a0 ≠ alin) (hd3 : a1 ≠ alin)
    (hseg : 2 ≤ arcSegs St position offset target radius a0 a1 cw) :
    ∃ pl1 s1,
      mc_arc X St target pl position offset radius a0 a1 alin cw s [] =
        some (arcFinalPos St position offset target radius a0 a1 alin cw,
          pl1, s1, []) ∧
      arcFinalPos St position offset target radius a0 a1 alin cw a0 =
        (position a0 + offset a0) +
          (iterFold St.nArcCorrection (-(offset a0)) (-(offset a1))
            (correctTravel (rawTravel position offset target a0 a1) cw /
              (arcSegs St position offset target radius a0 a1 cw : ℕ)) 1
            (arcSegs St position offset target radius a0 a1 cw - 1)
            ⟨-(offset a0), -(offset a1), 0⟩).r0 ∧
      arcFinalPos St position offset target radius a0 a1 alin cw a1 =
        (position a1 + offset a1) +
          (iterFold St.nArcCorrection (-(offset a0)) (-(offset a1))
            (correctTravel (rawTravel position offset target a0 a1) cw /
              (arcSegs St position offset target radius a0 a1 cw : ℕ)) 1
            (arcSegs St position offset target radius a0 a1 cw - 1)
            ⟨-(offset a0), -(offset a1), 0⟩).r1 ∧
      arcFinalPos St position offset target radius a0 a1 alin cw alin =
        position alin +
          ((arcSegs St position offset target radius a0 a1 cw - 1 : ℕ) : ℝ) *
            ((target alin - position alin) /
              (arcSegs St position offset target radius a0 a1 cw : ℕ)) ∧
      ∀ j, j ≠ a0 → j ≠ a1 → j ≠ alin →
        arcFinalPos St position offset target radius a0 a1 alin cw j =
          position j := by
  obtain ⟨pos1, s1, heq, _, _, hpos, _⟩ :=
    mc_arc_quiet X St target pl position offset radius a0 a1 alin cw s hsl
      hc ha hr hcap
  have hne : arcSegs St position offset target radius a0 a1 cw ≠ 0 := by
    omega
  rw [hpos hne] at heq
  have hinit0 : position a0 =
      (position a0 + offset a0) +
        (⟨-(offset a0), -(offset a1), 0⟩ : ArcIter).r0 := by
    dsimp only
    ring
  have hinit1 : position a1 =
      (position a1 + offset a1) +
        (⟨-(offset a0), -(offset a1), 0⟩ : ArcIter).r1 := by
    dsimp only
    ring
  obtain ⟨hh0, hh1, hh2, hh3⟩ :=
    arcPure_spec St.nArcCorrection (-(offset a0)) (-(offset a1))
      (correctTravel (rawTravel position offset target a0 a1) cw /
        (numSegments St.arc_tolerance
          (correctTravel (rawTravel position offset target a0 a1) cw)
          radius : ℕ))
      (position a0 + offset a0) (position a1 + offset a1)
      ((target alin - position alin) /
        (numSegments St.arc_tolerance
          (correctTravel (rawTravel position offset target a0 a1) cw)
          radius : ℕ))
      a0 a1 alin hd1 hd2 hd3
      (numSegments St.arc_tolerance
        (correctTravel (rawTravel position offset target a0 a1) cw)
        radius - 1) 1
      ⟨-(offset a0), -(offset a1), 0⟩ position hinit0 hinit1
  exact ⟨_, s1, heq, hh0, hh1, hh2, hh3⟩

/-- Witness for C10: the S2 full-circle run returns with the caller's
position array holding the last intermediate interpolated point. -/
theorem C10_witness :
    ∃ pl1 s1,
      mc_arc rExt rSettings ![10, 0, 0] rPl ![10, 0, 0] ![(-10), 0, 0] 10
          0 1 2 false rIdle [] =
        some (arcFinalPos rSettings ![10, 0, 0] ![(-10), 0, 0]
            ![10, 0, 0] 10 0 1 2 false, pl1, s1, []) := by
  obtain ⟨pl1, s1, heq, _⟩ :=
    C10_position_in_place rExt rSettings ![10, 0, 0] rPl ![10, 0, 0]
      ![(-10), 0, 0] 10 0 1 2 false rIdle rfl (by decide) rfl rfl
      (by decide) (by decide) (by decide) (by decide)
      (by rw [arcSegs_S2]; norm_num)
  exact ⟨pl1, s1, heq⟩

end Grbl
